import Mathlib

/-!
Shallow embedding of the mojo-crm data-access subsystem (TypeScript sources)
and proofs about its specification claims.

The embedding models:
- JavaScript runtime values (`JVal`) as far as the code inspects them
  (typeof checks, JSON.stringify, null/undefined distinction);
- the error taxonomy of `errors.ts` (`JsError`);
- the custom-field validation module (`validation/custom-fields.ts`);
- the audit helper (`utils/audit.ts`);
- the shared and per-repository database error mapping;
- the transaction coordinator (`config/database.ts` part 2, exported via
  `utils/transaction`);
- repository update / service-layer flows for the Task, Company and
  Custom-Field-Definition entities, over an in-memory assoc-list store.

JavaScript `Date` parsing (the host runtime's `new Date(v)` followed by
`isNaN(date.getTime())`) is an external facility of the JS engine, not code
of this repository; it is threaded through as an explicit boolean-valued
parameter `dateValid`.
-/

namespace MojoCrm

/-- JavaScript number as the code distinguishes it: NaN, plus or minus
Infinity, or a finite value (modelled as an integer; the claims never
depend on fractional doubles). -/
inductive JNum where
  | nan : JNum
  | inf : JNum
  | ninf : JNum
  | fin (n : Int) : JNum
deriving DecidableEq, Repr

/-- JavaScript runtime value, to the depth the repository's code inspects
values: strings, numbers, booleans, null, undefined, plain objects
(insertion-ordered fields) and arrays. -/
inductive JVal where
  | vStr (s : String) : JVal
  | vNum (n : JNum) : JVal
  | vBool (b : Bool) : JVal
  | vNull : JVal
  | vUndef : JVal
  | vObj (fields : List (String × JVal)) : JVal
  | vArr (elems : List JVal) : JVal
deriving Repr

/-- Flat field mapping: a JS object as an insertion-ordered association
list, the representation the audit helper and the repositories work on. -/
abbrev Row := List (String × JVal)

/-- JS `typeof v === "string"`. -/
def jsIsString : JVal → Bool
  | .vStr _ => true
  | _ => false

/-- JS `typeof v === "number"`. -/
def jsIsNumber : JVal → Bool
  | .vNum _ => true
  | _ => false

/-- JS `typeof v === "boolean"`. -/
def jsIsBoolean : JVal → Bool
  | .vBool _ => true
  | _ => false

/-- JS global `isNaN(v)` restricted to numbers (the code only applies it
after a `typeof v === "number"` guard). -/
def jsIsNaNNum : JNum → Bool
  | .nan => true
  | _ => false

/-- `Number.isFinite(v)` semantics: a numeric value that is neither NaN nor
an infinity.  Used to state what the spec calls a finite numeric value. -/
def jsIsFiniteNumber : JVal → Bool
  | .vNum (.fin _) => true
  | _ => false

/-- A numeric value other than NaN — what the code's
`typeof v === "number" && !isNaN(v)` test actually accepts (Infinity
included). -/
def jsIsNonNaNNumber : JVal → Bool
  | .vNum (.fin _) => true
  | .vNum .inf => true
  | .vNum .ninf => true
  | _ => false

/-- Whether an Except is a success. -/
def exceptIsOk : Except ε α → Bool
  | .ok _ => true
  | .error _ => false

/-- JSON string quoting with the escapes relevant to plain field values. -/
def jsonQuoteChar (c : Char) : String :=
  if c = '"' then "\\\""
  else if c = '\\' then "\\\\"
  else if c = '\n' then "\\n"
  else String.singleton c

/-- Quote a string as JSON.stringify does. -/
def jsonQuote (s : String) : String :=
  "\"" ++ String.join (s.toList.map jsonQuoteChar) ++ "\""

/-- JSON serialization of a JS number: NaN and the infinities serialize to
null, finite values print their decimal representation. -/
def jsonNum : JNum → String
  | .nan => "null"
  | .inf => "null"
  | .ninf => "null"
  | .fin n => toString n

mutual

/-- `JSON.stringify(v)`: returns `none` where JS returns `undefined`
(top-level undefined).  Object fields with undefined values are skipped;
undefined array elements serialize as null. -/
def jsonStringify : JVal → Option String
  | .vStr s => some (jsonQuote s)
  | .vNum n => some (jsonNum n)
  | .vBool b => some (if b then "true" else "false")
  | .vNull => some "null"
  | .vUndef => none
  | .vObj fields => some ("\x7b" ++ String.intercalate "," (jsonFields fields) ++ "\x7d")
  | .vArr elems => some ("[" ++ String.intercalate "," (jsonElems elems) ++ "]")

/-- Serialize the fields of a JS object, skipping undefined-valued keys. -/
def jsonFields : List (String × JVal) → List String
  | [] => []
  | (k, v) :: rest =>
    match jsonStringify v with
    | none => jsonFields rest
    | some s => (jsonQuote k ++ ":" ++ s) :: jsonFields rest

/-- Serialize the elements of a JS array; undefined becomes null. -/
def jsonElems : List JVal → List String
  | [] => []
  | v :: rest =>
    (match jsonStringify v with
     | none => "null"
     | some s => s) :: jsonElems rest

end

/-- Serialization of an optional value: an absent key reads as undefined,
and `JSON.stringify(undefined)` is undefined (`none`). -/
def jsonStringifyOpt : Option JVal → Option String
  | none => none
  | some v => jsonStringify v

/-- Raw error object reported by the store driver (node-postgres), with the
properties the repository code inspects. -/
structure PgError where
  code : String
  detail : Option String
  constraint : Option String
  column : Option String
deriving DecidableEq, Repr

/-- The error taxonomy of `errors.ts` as one sum type, plus a constructor
for raw store errors so that `DatabaseError.originalError` can be carried.
`validation` holds the `fields : Record<string, string[]>` mapping,
`notFound` the entity type and id, `database` wraps the original error,
`constraintViolation` holds the violated constraint name. -/
inductive JsError where
  | validation (message : String) (fields : List (String × List String))
  | notFound (entityType : String) (entityId : String)
  | database (message : String) (original : JsError)
  | constraintViolation (message : String) (constraint : String)
  | pgRaw (e : PgError)
deriving DecidableEq, Repr

/-- The `name` property each error class sets on itself (raw store errors
keep the generic name). -/
def errName : JsError → String
  | .validation _ _ => "ValidationError"
  | .notFound _ _ => "NotFoundError"
  | .database _ _ => "DatabaseError"
  | .constraintViolation _ _ => "ConstraintViolationError"
  | .pgRaw _ => "Error"

/-- The five field kinds of `CustomFieldType`. -/
inductive CustomFieldType where
  | text : CustomFieldType
  | number : CustomFieldType
  | date : CustomFieldType
  | enumType : CustomFieldType
  | boolean : CustomFieldType
deriving DecidableEq, Repr

/-- `CustomFieldDefinition` from `models/entities.ts`. -/
structure CustomFieldDefinition where
  id : String
  name : String
  label : String
  entityType : String
  fieldType : CustomFieldType
  enumValues : Option (List String)
  required : Bool
  createdAt : String
  createdBy : String
deriving DecidableEq, Repr

/-- JS truthiness of `null`/`undefined` as tested by
`value === null || value === undefined`. -/
def isNullish : JVal → Bool
  | .vNull => true
  | .vUndef => true
  | _ => false

/-- The kind-dispatching switch of `validateCustomFieldValue`
(custom-fields.ts lines 15-52): per-kind type check of a candidate value.
`dateValid v` stands for the host runtime's
`!isNaN(new Date(v).getTime())`.  Returns `none` when valid, `some msg`
with the recorded error message otherwise.  The `default` arm of the
source switch is unreachable because `CustomFieldType` is closed. -/
def kindSpecificCheck (dateValid : JVal → Bool) (definition : CustomFieldDefinition)
    (value : JVal) : Option String :=
  match definition.fieldType with
  | .text =>
    if jsIsString value then none
    else some ("Field \x27" ++ definition.label ++ "\x27 must be a string")
  | .number =>
    match value with
    | .vNum n =>
      if jsIsNaNNum n then some ("Field \x27" ++ definition.label ++ "\x27 must be a number")
      else none
    | _ => some ("Field \x27" ++ definition.label ++ "\x27 must be a number")
  | .date =>
    if dateValid value then none
    else some ("Field \x27" ++ definition.label ++ "\x27 must be a valid date")
  | .boolean =>
    if jsIsBoolean value then none
    else some ("Field \x27" ++ definition.label ++ "\x27 must be a boolean")
  | .enumType =>
    match definition.enumValues with
    | none => some ("Field \x27" ++ definition.label ++ "\x27 must be one of: undefined")
    | some legal =>
      match value with
      | .vStr s =>
        if legal.contains s then none
        else some ("Field \x27" ++ definition.label ++ "\x27 must be one of: "
                   ++ String.intercalate ", " legal)
      | _ => some ("Field \x27" ++ definition.label ++ "\x27 must be one of: "
                   ++ String.intercalate ", " legal)

/-- `validateCustomFieldValue` from `validation/custom-fields.ts`: null and
undefined short-circuit before the kind switch — they fail exactly when the
definition is required, and otherwise pass without any kind check. -/
def validateCustomFieldValue (dateValid : JVal → Bool)
    (definition : CustomFieldDefinition) (value : JVal) : Option String :=
  if isNullish value then
    if definition.required then
      some ("Field \x27" ++ definition.label ++ "\x27 is required")
    else none
  else kindSpecificCheck dateValid definition value

/-- Push a message under a key of a `Record<string, string[]>`, creating
the key with an empty list first when absent, exactly as the
`if (!errors[k]) errors[k] = []; errors[k].push(msg)` idiom does. -/
def recordPush (rec : List (String × List String)) (key msg : String) :
    List (String × List String) :=
  if rec.any (fun p => p.1 == key) then
    rec.map (fun p => if p.1 == key then (p.1, p.2 ++ [msg]) else p)
  else rec ++ [(key, [msg])]

/-- One step of the first accumulation loop of `validateCustomFields`:
record "unknown field" for a candidate key with no definition, or the
value-check error message when the value is invalid. -/
def candidateStep (dateValid : JVal → Bool) (definitions : List CustomFieldDefinition)
    (errors : List (String × List String)) (kv : String × JVal) :
    List (String × List String) :=
  match definitions.find? (fun d => d.name == kv.1) with
  | none => recordPush errors kv.1 ("Unknown custom field: " ++ kv.1)
  | some definition =>
    match validateCustomFieldValue dateValid definition kv.2 with
    | none => errors
    | some msg => recordPush errors kv.1 msg

/-- One step of the second accumulation loop of `validateCustomFields`:
record "required field missing" for a required definition whose name is
absent from the candidate mapping. -/
def requiredStep (customFields : Row) (errors : List (String × List String))
    (d : CustomFieldDefinition) : List (String × List String) :=
  if d.required && !(customFields.any (fun kv => kv.1 == d.name)) then
    recordPush errors d.name ("Required field \x27" ++ d.label ++ "\x27 is missing")
  else errors

/-- The whole error mapping `validateCustomFields` accumulates: the
candidate-entry loop followed by the required-definition loop. -/
def customFieldErrors (dateValid : JVal → Bool)
    (definitions : List CustomFieldDefinition) (customFields : Row) :
    List (String × List String) :=
  definitions.foldl (requiredStep customFields)
    (customFields.foldl (candidateStep dateValid definitions) [])

/-- `validateCustomFields` from `validation/custom-fields.ts`: accumulate
an error mapping over all candidate entries (unknown key, or invalid
value), then over all required definitions missing from the candidate
mapping, and throw a ValidationError carrying the whole mapping when it is
nonempty. -/
def validateCustomFields (dateValid : JVal → Bool)
    (definitions : List CustomFieldDefinition) (customFields : Row) :
    Except JsError Unit :=
  let errsAll := customFieldErrors dateValid definitions customFields
  if errsAll.isEmpty then Except.ok ()
  else Except.error (JsError.validation "Custom field validation failed" errsAll)

/-- Statement-side predicate: the candidate entry `kv` is one the
validation loop records an error for — either its key has no definition of
that name, or its value fails its definition's value check
(`validateCustomFieldValue`). -/
def fieldOffends (dateValid : JVal → Bool) (definitions : List CustomFieldDefinition)
    (kv : String × JVal) : Bool :=
  match definitions.find? (fun d => d.name == kv.1) with
  | none => true
  | some definition => (validateCustomFieldValue dateValid definition kv.2).isSome

/-- Statement-side predicate rendering the claim's words literally: the
candidate key has no definition, or its value fails the definition's
KIND-SPECIFIC check (the kind switch alone, without the null/undefined
short-circuit of `validateCustomFieldValue`). -/
def fieldOffendsKind (dateValid : JVal → Bool) (definitions : List CustomFieldDefinition)
    (kv : String × JVal) : Bool :=
  match definitions.find? (fun d => d.name == kv.1) with
  | none => true
  | some definition => (kindSpecificCheck dateValid definition kv.2).isSome

/-- Statement-side predicate: a required definition whose name is absent
from the candidate mapping. -/
def requiredAbsent (customFields : Row) (d : CustomFieldDefinition) : Bool :=
  d.required && !(customFields.any (fun kv => kv.1 == d.name))

/-- The failure condition `validateCustomFields` actually implements. -/
def anyOffender (dateValid : JVal → Bool) (definitions : List CustomFieldDefinition)
    (customFields : Row) : Bool :=
  customFields.any (fieldOffends dateValid definitions)
    || definitions.any (requiredAbsent customFields)

/-- The failure condition claimed (kind-specific check applied to every
non-missing candidate value, with no null/undefined exemption). -/
def claimedOffender (dateValid : JVal → Bool) (definitions : List CustomFieldDefinition)
    (customFields : Row) : Bool :=
  customFields.any (fieldOffendsKind dateValid definitions)
    || definitions.any (requiredAbsent customFields)

/-- Whether a character list starts with another. -/
def listStartsWith : List Char → List Char → Bool
  | _, [] => true
  | [], _ :: _ => false
  | h :: hs, n :: ns => h == n && listStartsWith hs ns

/-- Whether a character list contains another as a contiguous run. -/
def listHasInfix : List Char → List Char → Bool
  | [], needle => needle.isEmpty
  | c :: t, needle => listStartsWith (c :: t) needle || listHasInfix t needle

/-- JS `haystack.includes(needle)` on strings. -/
def strIncludes (hay needle : String) : Bool :=
  listHasInfix hay.toList needle.toList

/-- JS `opt || dflt` on an optional string: both a missing property and an
empty string are falsy. -/
def jsOrElse (opt : Option String) (dflt : String) : String :=
  match opt with
  | none => dflt
  | some s => if s == "" then dflt else s

/-- `handleDatabaseError` from `utils/error-handler.ts` (the shared
utility): maps Postgres error codes 23503/23505/23514/23502/22P02 to the
typed error taxonomy, with best-effort domain messages, and wraps anything
else as a DatabaseError carrying the original error. -/
def handleDatabaseError (error : PgError) : JsError :=
  if error.code == "23503" then
    let detail := jsOrElse error.detail ""
    let message :=
      if strIncludes detail "company_id" then "Referenced company does not exist"
      else if strIncludes detail "contact_id" then "Referenced contact does not exist"
      else "Foreign key constraint violation"
    JsError.constraintViolation message (jsOrElse error.constraint "unknown")
  else if error.code == "23505" then
    let detail := jsOrElse error.detail ""
    let message :=
      if strIncludes detail "email" then "Email address already exists"
      else if strIncludes detail "name" then "Name already exists"
      else "Unique constraint violation"
    JsError.constraintViolation message (jsOrElse error.constraint "unknown")
  else if error.code == "23514" then
    let constraint := jsOrElse error.constraint ""
    let message :=
      if strIncludes constraint "probability" then "Probability must be between 0 and 100"
      else if strIncludes constraint "status" then "Invalid status value"
      else "Check constraint violation"
    JsError.constraintViolation message (jsOrElse error.constraint "unknown")
  else if error.code == "23502" then
    let column := jsOrElse error.column "unknown"
    JsError.constraintViolation
      ("Required field \x27" ++ column ++ "\x27 cannot be null") "not_null"
  else if error.code == "22P02" then
    JsError.validation "Invalid data format" [("format", ["Invalid UUID or data type format"])]
  else JsError.database "Database operation failed" (JsError.pgRaw error)

/-- The private `handleDatabaseError` each repository defines for itself
(company.repository.ts lines 188-211; contact, deal, note, task and — up
to the 23505 message — custom-field-definition repositories are
identical): only foreign-key, unique and check violations are mapped;
every other store error, including not-null (23502) and invalid text
representation (22P02), is wrapped as a DatabaseError. -/
def repoHandleDatabaseError (error : PgError) : JsError :=
  if error.code == "23503" then
    JsError.constraintViolation "Foreign key constraint violation"
      (jsOrElse error.constraint "unknown")
  else if error.code == "23505" then
    JsError.constraintViolation "Unique constraint violation"
      (jsOrElse error.constraint "unknown")
  else if error.code == "23514" then
    JsError.constraintViolation "Check constraint violation"
      (jsOrElse error.constraint "unknown")
  else JsError.database "Database operation failed" (JsError.pgRaw error)

/-- An audit-log record as `AuditLogRepository.createAuditLog` inserts it
(the store also generates an id and a timestamp; those are store-side
defaults, not data the caller supplies). -/
structure AuditRecord where
  entityType : String
  entityId : String
  action : String
  userId : String
  changes : JVal
deriving Repr

/-- Lift an optional value back to the JS value it denotes (an absent
property reads as undefined). -/
def optToJs : Option JVal → JVal
  | none => JVal.vUndef
  | some v => v

/-- Property lookup on a flat object. -/
def rowLookup (row : Row) (k : String) : Option JVal :=
  (row.find? (fun p => p.1 == k)).map Prod.snd

/-- Worker for `jsSetDedup`, tracking keys already emitted. -/
def jsSetDedupAux (seen : List String) : List String → List String
  | [] => []
  | k :: rest =>
    if seen.contains k then jsSetDedupAux seen rest
    else k :: jsSetDedupAux (k :: seen) rest

/-- JS `new Set([...xs])` iteration order: first occurrences, in order. -/
def jsSetDedup (l : List String) : List String := jsSetDedupAux [] l

/-- Metadata fields skipped by the audit diff. -/
def auditMetaKeys : List String := ["id", "createdAt", "createdBy", "updatedAt", "updatedBy"]

/-- One iteration of the `calculateChanges` loop: skip metadata keys, and
record the pair of raw values under a key whose JSON serializations
differ. -/
def calcStep (before after : Row)
    (changes : List (String × (Option JVal × Option JVal))) (key : String) :
    List (String × (Option JVal × Option JVal)) :=
  if auditMetaKeys.contains key then changes
  else
    let beforeValue := rowLookup before key
    let afterValue := rowLookup after key
    if jsonStringifyOpt beforeValue ≠ jsonStringifyOpt afterValue then
      changes ++ [(key, (beforeValue, afterValue))]
    else changes

/-- `AuditHelper.calculateChanges`: over the deduplicated union of the two
key sets, run `calcStep`, starting from an empty record. -/
def calculateChanges (before after : Row) : List (String × (Option JVal × Option JVal)) :=
  let allKeys := jsSetDedup (before.map Prod.fst ++ after.map Prod.fst)
  allKeys.foldl (calcStep before after) []

/-- Recursive reformulation of the `calculateChanges` loop, for
reasoning. -/
def changesOf (before after : Row) : List String → List (String × (Option JVal × Option JVal))
  | [] => []
  | key :: rest =>
    if auditMetaKeys.contains key then changesOf before after rest
    else if jsonStringifyOpt (rowLookup before key) ≠ jsonStringifyOpt (rowLookup after key) then
      (key, (rowLookup before key, rowLookup after key)) :: changesOf before after rest
    else changesOf before after rest

/-- `AuditHelper.logCreate`: one create record holding the full entity. -/
def logCreate (entityType entityId userId : String) (entityData : JVal) : AuditRecord :=
  ⟨entityType, entityId, "create", userId, JVal.vObj [("created", entityData)]⟩

/-- Changes payload as stored: each changed key maps to its before/after
pair. -/
def changesToJs (changes : List (String × (Option JVal × Option JVal))) : JVal :=
  JVal.vObj (changes.map (fun c =>
    (c.1, JVal.vObj [("before", optToJs c.2.1), ("after", optToJs c.2.2)])))

/-- `AuditHelper.logUpdate`: compute the diff and write one update record
carrying it — unless the diff is empty, in which case nothing is written
(`none`). -/
def logUpdate (entityType entityId userId : String) (before after : Row) :
    Option AuditRecord :=
  let changes := calculateChanges before after
  if changes.length > 0 then
    some ⟨entityType, entityId, "update", userId, changesToJs changes⟩
  else none

/-- `AuditHelper.logDelete`: one delete record holding the deleted
entity's snapshot. -/
def logDelete (entityType entityId userId : String) (entityData : JVal) : AuditRecord :=
  ⟨entityType, entityId, "delete", userId, JVal.vObj [("deleted", entityData)]⟩

/-- Observable connection/transaction actions of the coordinator.  `work`
stands for a query the unit of work itself issues on the shared handle. -/
inductive TxEvent where
  | acquire : TxEvent
  | beginTx : TxEvent
  | commitTx : TxEvent
  | rollbackTx : TxEvent
  | release : TxEvent
  | work : TxEvent
deriving DecidableEq, Repr

/-- `TransactionManager.executeInTransaction` (config/database.ts part 2):
acquire a connection, BEGIN, run the callback, COMMIT and return its value
on success; on any failure ROLLBACK and rethrow the failure wrapped as
`DatabaseError("Transaction failed", error)`; release in a finally block
on both paths.  The callback is modelled by its outcome `cb` and the trace
`cbTrace` of queries it issues on the shared handle before that outcome. -/
def executeInTransaction (cbTrace : List TxEvent) (cb : Except JsError α) :
    Except JsError α × List TxEvent :=
  match cb with
  | Except.ok a =>
    (Except.ok a,
     [TxEvent.acquire, TxEvent.beginTx] ++ cbTrace ++ [TxEvent.commitTx, TxEvent.release])
  | Except.error e =>
    (Except.error (JsError.database "Transaction failed" e),
     [TxEvent.acquire, TxEvent.beginTx] ++ cbTrace ++ [TxEvent.rollbackTx, TxEvent.release])

/-- The standalone `withTransaction` helper: same shape, but the catch
block rethrows the original error unchanged instead of wrapping it. -/
def withTransaction (cbTrace : List TxEvent) (cb : Except JsError α) :
    Except JsError α × List TxEvent :=
  match cb with
  | Except.ok a =>
    (Except.ok a,
     [TxEvent.acquire, TxEvent.beginTx] ++ cbTrace ++ [TxEvent.commitTx, TxEvent.release])
  | Except.error e =>
    (Except.error e,
     [TxEvent.acquire, TxEvent.beginTx] ++ cbTrace ++ [TxEvent.rollbackTx, TxEvent.release])

/-!
In-memory semantics of the single-row SQL statements the repositories
issue: a table is an id-keyed association list of flat rows.  Timestamps
(`NOW()`) and generated ids (`gen_random_uuid()`) are store-side inputs
and are passed in explicitly.  Zod input validation (`validateData`)
precedes every service mutation and aborts the call with a ValidationError
on bad shapes, so the service models below take already-validated, typed
input — a call that fails schema validation performs no mutation and
writes no audit record.
-/

/-- A table: id-keyed rows. -/
abbrev Table := List (String × Row)

/-- `SELECT * FROM t WHERE id = $1` returning at most one row. -/
def storeFind (rows : Table) (id : String) : Option Row :=
  (rows.find? (fun p => p.1 == id)).map Prod.snd

/-- Replace the row stored under an id (an UPDATE hit). -/
def storeSet (rows : Table) (id : String) (r : Row) : Table :=
  rows.map (fun p => if p.1 == id then (p.1, r) else p)

/-- `DELETE FROM t WHERE id = $1`. -/
def storeDelete (rows : Table) (id : String) : Table :=
  rows.filter (fun p => p.1 != id)

/-- Set one column of a row. -/
def rowSet (row : Row) (k : String) (v : JVal) : Row :=
  row.map (fun p => if p.1 == k then (p.1, v) else p)

/-- A nullable string column value. -/
def optStrToJs : Option String → JVal
  | none => JVal.vNull
  | some s => JVal.vStr s

/-- Validated `CreateTaskInput`. -/
structure TaskInput where
  description : String
  dueDate : Option String
  assignedTo : Option String
  status : String
  entityType : String
  entityId : String
deriving Repr

/-- Validated `UpdateTaskInput`: each field either absent (`none`) or
present with its value; a present nullable field may carry null. -/
structure TaskDelta where
  description : Option String
  dueDate : Option (Option String)
  assignedTo : Option (Option String)
  status : Option String
deriving Repr

/-- The row `TaskRepository.create` inserts and maps back: provided fields
plus store defaults for id and both timestamps, and the acting user as
creator and modifier. -/
def taskRowOfInput (d : TaskInput) (id userId now : String) : Row :=
  [("id", JVal.vStr id),
   ("description", JVal.vStr d.description),
   ("dueDate", optStrToJs d.dueDate),
   ("assignedTo", optStrToJs d.assignedTo),
   ("status", JVal.vStr d.status),
   ("entityType", JVal.vStr d.entityType),
   ("entityId", JVal.vStr d.entityId),
   ("createdAt", JVal.vStr now),
   ("updatedAt", JVal.vStr now),
   ("createdBy", JVal.vStr userId),
   ("updatedBy", JVal.vStr userId)]

/-- `TaskRepository.update` (task repository, lines 248-320): collect the
recognized fields present in the delta; with none present, fall back to
`findById` and return the stored row unchanged (NotFound when absent);
otherwise set the changed columns plus `updated_at`/`updated_by` and
return the updated row, NotFound when no row matched. -/
def taskRepoUpdate (rows : Table) (id : String) (data : TaskDelta)
    (userId now : String) : Except JsError (Row × Table) :=
  let noUpdates := data.description.isNone && data.dueDate.isNone
    && data.assignedTo.isNone && data.status.isNone
  if noUpdates then
    match storeFind rows id with
    | none => Except.error (JsError.notFound "Task" id)
    | some existing => Except.ok (existing, rows)
  else
    match storeFind rows id with
    | none => Except.error (JsError.notFound "Task" id)
    | some existing =>
      let r := existing
      let r := match data.description with
        | none => r
        | some s => rowSet r "description" (JVal.vStr s)
      let r := match data.dueDate with
        | none => r
        | some o => rowSet r "dueDate" (optStrToJs o)
      let r := match data.assignedTo with
        | none => r
        | some o => rowSet r "assignedTo" (optStrToJs o)
      let r := match data.status with
        | none => r
        | some s => rowSet r "status" (JVal.vStr s)
      let r := rowSet r "updatedAt" (JVal.vStr now)
      let r := rowSet r "updatedBy" (JVal.vStr userId)
      Except.ok (r, storeSet rows id r)

/-- `TaskRepository.delete`: NotFound when no row was removed. -/
def taskRepoDelete (rows : Table) (id : String) : Except JsError Table :=
  match storeFind rows id with
  | none => Except.error (JsError.notFound "Task" id)
  | some _ => Except.ok (storeDelete rows id)

/-- Task table plus the audit log the service writes to. -/
structure TaskStore where
  rows : Table
  audit : List AuditRecord
deriving Repr

/-- `TaskService.createTask`: create through the repository, then one
create audit record. -/
def serviceCreateTask (st : TaskStore) (data : TaskInput)
    (userId genId now : String) : Except JsError Row × TaskStore :=
  let task := taskRowOfInput data genId userId now
  let auditRec := logCreate "task" genId userId (JVal.vObj task)
  (Except.ok task, ⟨st.rows ++ [(genId, task)], st.audit ++ [auditRec]⟩)

/-- `TaskService.getTask`: repository lookup, throwing
`ValidationError("Task not found", ...)` when absent. -/
def serviceGetTask (st : TaskStore) (id : String) : Except JsError Row :=
  match storeFind st.rows id with
  | none => Except.error (JsError.validation "Task not found" [("id", ["Task does not exist"])])
  | some task => Except.ok task

/-- `TaskService.updateTask`: existence check (ValidationError when
absent), repository update, then the conditional update audit record. -/
def serviceUpdateTask (st : TaskStore) (id : String) (data : TaskDelta)
    (userId now : String) : Except JsError Row × TaskStore :=
  match storeFind st.rows id with
  | none =>
    (Except.error (JsError.validation "Task not found" [("id", ["Task does not exist"])]), st)
  | some existingTask =>
    match taskRepoUpdate st.rows id data userId now with
    | Except.error e => (Except.error e, st)
    | Except.ok (updatedTask, rows2) =>
      let auditDelta := match logUpdate "task" id userId existingTask updatedTask with
        | none => []
        | some r => [r]
      (Except.ok updatedTask, ⟨rows2, st.audit ++ auditDelta⟩)

/-- `TaskService.deleteTask`: existence check (ValidationError when
absent), repository delete, then one delete audit record. -/
def serviceDeleteTask (st : TaskStore) (id : String) (userId : String) :
    Except JsError Unit × TaskStore :=
  match storeFind st.rows id with
  | none =>
    (Except.error (JsError.validation "Task not found" [("id", ["Task does not exist"])]), st)
  | some existingTask =>
    match taskRepoDelete st.rows id with
    | Except.error e => (Except.error e, st)
    | Except.ok rows2 =>
      let auditRec := logDelete "task" id userId (JVal.vObj existingTask)
      (Except.ok (), ⟨rows2, st.audit ++ [auditRec]⟩)

/-- Validated `CreateCompanyInput`: name, nullable address object, and the
custom-fields mapping. -/
structure CompanyInput where
  name : String
  address : JVal
  customFields : Row
deriving Repr

/-- Validated `UpdateCompanyInput`. -/
structure CompanyDelta where
  name : Option String
  address : Option JVal
  customFields : Option Row
deriving Repr

/-- The row `CompanyRepository.create` inserts and maps back. -/
def companyRowOfInput (d : CompanyInput) (id userId now : String) : Row :=
  [("id", JVal.vStr id),
   ("name", JVal.vStr d.name),
   ("address", d.address),
   ("customFields", JVal.vObj d.customFields),
   ("createdAt", JVal.vStr now),
   ("updatedAt", JVal.vStr now),
   ("createdBy", JVal.vStr userId),
   ("updatedBy", JVal.vStr userId)]

/-- `CompanyRepository.update` (company.repository.ts lines 86-152): same
shape as the task update with recognized fields name, address and
customFields. -/
def companyRepoUpdate (rows : Table) (id : String) (data : CompanyDelta)
    (userId now : String) : Except JsError (Row × Table) :=
  let noUpdates := data.name.isNone && data.address.isNone && data.customFields.isNone
  if noUpdates then
    match storeFind rows id with
    | none => Except.error (JsError.notFound "Company" id)
    | some existing => Except.ok (existing, rows)
  else
    match storeFind rows id with
    | none => Except.error (JsError.notFound "Company" id)
    | some existing =>
      let r := existing
      let r := match data.name with
        | none => r
        | some s => rowSet r "name" (JVal.vStr s)
      let r := match data.address with
        | none => r
        | some v => rowSet r "address" v
      let r := match data.customFields with
        | none => r
        | some cf => rowSet r "customFields" (JVal.vObj cf)
      let r := rowSet r "updatedAt" (JVal.vStr now)
      let r := rowSet r "updatedBy" (JVal.vStr userId)
      Except.ok (r, storeSet rows id r)

/-- `CompanyRepository.delete`: NotFound when no row was removed. -/
def companyRepoDelete (rows : Table) (id : String) : Except JsError Table :=
  match storeFind rows id with
  | none => Except.error (JsError.notFound "Company" id)
  | some _ => Except.ok (storeDelete rows id)

/-- Company table, the custom-field definitions for entity type company,
and the audit log. -/
structure CompanyStore where
  rows : Table
  cfdefs : List CustomFieldDefinition
  audit : List AuditRecord
deriving Repr

/-- `CompanyService.createCompany`: schema-validated input, custom-field
validation when a nonempty mapping is supplied, repository create, one
create audit record. -/
def serviceCreateCompany (dateValid : JVal → Bool) (st : CompanyStore)
    (data : CompanyInput) (userId genId now : String) :
    Except JsError Row × CompanyStore :=
  if data.customFields.length > 0 then
    match validateCustomFields dateValid st.cfdefs data.customFields with
    | Except.error e => (Except.error e, st)
    | Except.ok () =>
      let company := companyRowOfInput data genId userId now
      let auditRec := logCreate "company" genId userId (JVal.vObj company)
      (Except.ok company, ⟨st.rows ++ [(genId, company)], st.cfdefs, st.audit ++ [auditRec]⟩)
  else
    let company := companyRowOfInput data genId userId now
    let auditRec := logCreate "company" genId userId (JVal.vObj company)
    (Except.ok company, ⟨st.rows ++ [(genId, company)], st.cfdefs, st.audit ++ [auditRec]⟩)

/-- `CompanyService.getCompany`: ValidationError when absent. -/
def serviceGetCompany (st : CompanyStore) (id : String) : Except JsError Row :=
  match storeFind st.rows id with
  | none =>
    Except.error (JsError.validation "Company not found" [("id", ["Company does not exist"])])
  | some company => Except.ok company

/-- The custom-fields guard of `CompanyService.updateCompany`: validate
only when a nonempty mapping was supplied in the delta. -/
def companyCfCheck (dateValid : JVal → Bool) (st : CompanyStore) (data : CompanyDelta) :
    Except JsError Unit :=
  match data.customFields with
  | some cf =>
    if cf.length > 0 then validateCustomFields dateValid st.cfdefs cf else Except.ok ()
  | none => Except.ok ()

/-- `CompanyService.updateCompany`: existence check (ValidationError when
absent), custom-field validation when a nonempty mapping is supplied,
repository update, conditional update audit record. -/
def serviceUpdateCompany (dateValid : JVal → Bool) (st : CompanyStore)
    (id : String) (data : CompanyDelta) (userId now : String) :
    Except JsError Row × CompanyStore :=
  match storeFind st.rows id with
  | none =>
    (Except.error (JsError.validation "Company not found" [("id", ["Company does not exist"])]),
     st)
  | some existingCompany =>
    match companyCfCheck dateValid st data with
    | Except.error e => (Except.error e, st)
    | Except.ok () =>
      match companyRepoUpdate st.rows id data userId now with
      | Except.error e => (Except.error e, st)
      | Except.ok (updatedCompany, rows2) =>
        let auditDelta :=
          match logUpdate "company" id userId existingCompany updatedCompany with
          | none => []
          | some r => [r]
        (Except.ok updatedCompany, ⟨rows2, st.cfdefs, st.audit ++ auditDelta⟩)

/-- `CompanyService.deleteCompany`: existence check (ValidationError when
absent), repository delete, one delete audit record. -/
def serviceDeleteCompany (st : CompanyStore) (id : String) (userId : String) :
    Except JsError Unit × CompanyStore :=
  match storeFind st.rows id with
  | none =>
    (Except.error (JsError.validation "Company not found" [("id", ["Company does not exist"])]),
     st)
  | some existingCompany =>
    match companyRepoDelete st.rows id with
    | Except.error e => (Except.error e, st)
    | Except.ok rows2 =>
      let auditRec := logDelete "company" id userId (JVal.vObj existingCompany)
      (Except.ok (), ⟨rows2, st.cfdefs, st.audit ++ [auditRec]⟩)

/-- Validated `CreateCustomFieldDefinitionInput`. -/
structure CFDefInput where
  name : String
  label : String
  entityType : String
  fieldType : CustomFieldType
  enumValues : Option (List String)
  required : Bool
deriving Repr

/-- Definitions table plus the audit log (which the custom-field service
never writes to). -/
structure CFDefStore where
  defs : List (String × CustomFieldDefinition)
  audit : List AuditRecord
deriving Repr

/-- `CustomFieldService.createCustomFieldDefinition`: schema-validated
input straight to the repository create — no audit call anywhere in the
method body. -/
def serviceCreateCFDef (st : CFDefStore) (data : CFDefInput)
    (userId genId now : String) : Except JsError CustomFieldDefinition × CFDefStore :=
  let d : CustomFieldDefinition :=
    ⟨genId, data.name, data.label, data.entityType, data.fieldType,
     data.enumValues, data.required, now, userId⟩
  (Except.ok d, ⟨st.defs ++ [(genId, d)], st.audit⟩)

/-- Partial update payload for a definition; the repository recognizes
only label and required. -/
structure CFDefDelta where
  label : Option String
  required : Option Bool
deriving Repr

/-- `CustomFieldDefinitionRepository.update`: only label and required are
updatable (name and kind are immutable post-creation); empty delta falls
back to findById; no timestamp columns exist on this table. -/
def cfdefRepoUpdate (defs : List (String × CustomFieldDefinition)) (id : String)
    (data : CFDefDelta) : Except JsError (CustomFieldDefinition × List (String × CustomFieldDefinition)) :=
  let noUpdates := data.label.isNone && data.required.isNone
  let current := (defs.find? (fun p => p.1 == id)).map Prod.snd
  if noUpdates then
    match current with
    | none => Except.error (JsError.notFound "CustomFieldDefinition" id)
    | some existing => Except.ok (existing, defs)
  else
    match current with
    | none => Except.error (JsError.notFound "CustomFieldDefinition" id)
    | some existing =>
      let d := { existing with
        label := data.label.getD existing.label,
        required := data.required.getD existing.required }
      Except.ok (d, defs.map (fun p => if p.1 == id then (p.1, d) else p))

/-- `CustomFieldService.updateCustomFieldDefinition`: existence check
(ValidationError when absent) then repository update — no audit call. -/
def serviceUpdateCFDef (st : CFDefStore) (id : String) (data : CFDefDelta)
    (_userId : String) : Except JsError CustomFieldDefinition × CFDefStore :=
  match (st.defs.find? (fun p => p.1 == id)).map Prod.snd with
  | none =>
    (Except.error (JsError.validation "Custom field definition not found"
      [("id", ["Custom field definition does not exist"])]), st)
  | some _ =>
    match cfdefRepoUpdate st.defs id data with
    | Except.error e => (Except.error e, st)
    | Except.ok (d, defs2) => (Except.ok d, ⟨defs2, st.audit⟩)

/-- `CustomFieldService.deleteCustomFieldDefinition`: existence check
(ValidationError when absent) then repository delete — no audit call, and
no cascade cleanup of stored values (left as a future enhancement in the
source). -/
def serviceDeleteCFDef (st : CFDefStore) (id : String) (_userId : String) :
    Except JsError Unit × CFDefStore :=
  match (st.defs.find? (fun p => p.1 == id)).map Prod.snd with
  | none =>
    (Except.error (JsError.validation "Custom field definition not found"
      [("id", ["Custom field definition does not exist"])]), st)
  | some _ =>
    (Except.ok (), ⟨st.defs.filter (fun p => p.1 != id), st.audit⟩)

/-! Theorems. -/

/-- C5: the transaction coordinator (both `executeInTransaction` and the
standalone `withTransaction` helper), for every unit of work that does not
itself manage the connection, acquires one connection, issues BEGIN before
running the unit of work, issues COMMIT exactly when the unit of work
returns successfully and ROLLBACK exactly on failure, and releases the
connection exactly once on every path. -/
theorem transaction_coordinator_protocol {α : Type} (cbTrace : List TxEvent)
    (cb : Except JsError α)
    (hr : TxEvent.release ∉ cbTrace) (hc : TxEvent.commitTx ∉ cbTrace)
    (hb : TxEvent.rollbackTx ∉ cbTrace) (ha : TxEvent.acquire ∉ cbTrace) :
    ∀ tr ∈ [(executeInTransaction cbTrace cb).2, (withTransaction cbTrace cb).2],
      tr = [TxEvent.acquire, TxEvent.beginTx] ++ cbTrace
            ++ [if exceptIsOk cb then TxEvent.commitTx else TxEvent.rollbackTx, TxEvent.release]
      ∧ tr.count TxEvent.acquire = 1
      ∧ tr.count TxEvent.release = 1
      ∧ (TxEvent.commitTx ∈ tr ↔ exceptIsOk cb = true)
      ∧ (TxEvent.rollbackTx ∈ tr ↔ exceptIsOk cb = false) := by
  have hr0 := List.count_eq_zero.mpr hr
  have ha0 := List.count_eq_zero.mpr ha
  intro tr htr
  simp only [List.mem_cons, List.mem_singleton, List.not_mem_nil, or_false] at htr
  cases cb with
  | ok a =>
    rcases htr with h | h <;> subst h <;>
      simp [executeInTransaction, withTransaction, exceptIsOk, List.count_append,
        List.count_cons, hr0, ha0, hc, hb, hr, ha]
  | error e =>
    rcases htr with h | h <;> subst h <;>
      simp [executeInTransaction, withTransaction, exceptIsOk, List.count_append,
        List.count_cons, hr0, ha0, hc, hb, hr, ha]

/-- C5 witness: one concrete unit of work on each path. -/
theorem transaction_coordinator_protocol_witness :
    (executeInTransaction [TxEvent.work] (Except.ok () : Except JsError Unit)).2
      = [TxEvent.acquire, TxEvent.beginTx, TxEvent.work, TxEvent.commitTx, TxEvent.release]
    ∧ (withTransaction [TxEvent.work]
        (Except.error (JsError.notFound "Task" "t1") : Except JsError Unit)).2
      = [TxEvent.acquire, TxEvent.beginTx, TxEvent.work, TxEvent.rollbackTx, TxEvent.release] := by
  constructor
  · have h := transaction_coordinator_protocol [TxEvent.work]
      (Except.ok () : Except JsError Unit)
      (by decide) (by decide) (by decide) (by decide)
      (executeInTransaction [TxEvent.work] (Except.ok () : Except JsError Unit)).2
      (by simp)
    simpa using h.1
  · have h := transaction_coordinator_protocol [TxEvent.work]
      (Except.error (JsError.notFound "Task" "t1") : Except JsError Unit)
      (by decide) (by decide) (by decide) (by decide)
      (withTransaction [TxEvent.work]
        (Except.error (JsError.notFound "Task" "t1") : Except JsError Unit)).2
      (by simp)
    simpa using h.1

/-- C10: `executeInTransaction` rethrows every unit-of-work failure as a
DatabaseError wrapping the original error — so the caller observes the
DatabaseError kind, not the original kind — while the standalone
`withTransaction` helper rethrows the original error unchanged. -/
theorem transaction_error_wrapping (cbTrace : List TxEvent) (e : JsError) :
    (executeInTransaction cbTrace (Except.error e : Except JsError Unit)).1
        = Except.error (JsError.database "Transaction failed" e)
    ∧ errName (JsError.database "Transaction failed" e) = "DatabaseError"
    ∧ (withTransaction cbTrace (Except.error e : Except JsError Unit)).1 = Except.error e :=
  ⟨rfl, rfl, rfl⟩

/-- C7 (amended): for a definition of kind number, a null or undefined
candidate passes exactly when the definition is not required; any other
candidate is accepted exactly when it is a numeric value other than NaN —
so NaN is rejected, but the infinities also pass: finiteness is not
checked. -/
theorem number_validation_accepts_nonNaN (dv : JVal → Bool)
    (d : CustomFieldDefinition) (v : JVal)
    (hk : d.fieldType = CustomFieldType.number) :
    validateCustomFieldValue dv d v = none ↔
      (if isNullish v = true then d.required = false else jsIsNonNaNNumber v = true) := by
  unfold validateCustomFieldValue kindSpecificCheck
  rw [hk]
  cases v <;> cases hq : d.required <;>
    simp [isNullish, jsIsNonNaNNumber, jsIsNaNNum] <;>
    (try rename_i n; cases n <;> simp [jsIsNaNNum, jsIsNonNaNNumber])

/-- C7 witness: an ordinary finite number passes for a number-kind
definition. -/
theorem number_validation_accepts_nonNaN_witness :
    validateCustomFieldValue (fun _ => true)
      ⟨"cf2", "score", "Score", "company", CustomFieldType.number, none, false, "t0", "admin"⟩
      (JVal.vNum (JNum.fin 42)) = none :=
  (number_validation_accepts_nonNaN (fun _ => true)
    ⟨"cf2", "score", "Score", "company", CustomFieldType.number, none, false, "t0", "admin"⟩
    (JVal.vNum (JNum.fin 42)) rfl).mpr (by decide)

/-- C7 counterexample: Infinity is a numeric value that is not finite, yet
the number-kind check accepts it, refuting "accepts if and only if the
value is finite". -/
theorem number_validation_claim_counterexample :
    validateCustomFieldValue (fun _ => true)
      ⟨"cf2", "score", "Score", "company", CustomFieldType.number, none, false, "t0", "admin"⟩
      (JVal.vNum JNum.inf) = none
    ∧ jsIsFiniteNumber (JVal.vNum JNum.inf) = false :=
  ⟨rfl, rfl⟩

/-- C9: a null or undefined candidate value for a non-required definition
passes the value check for every field kind (the kind-specific check is
bypassed), and a mapping holding just that entry passes the whole
validation. -/
theorem nullish_bypasses_kind_check (dv : JVal → Bool)
    (d : CustomFieldDefinition) (v : JVal)
    (hreq : d.required = false) (hv : isNullish v = true) :
    validateCustomFieldValue dv d v = none
    ∧ validateCustomFields dv [d] [(d.name, v)] = Except.ok () := by
  have h1 : validateCustomFieldValue dv d v = none := by
    unfold validateCustomFieldValue
    rw [hv]
    simp [hreq]
  refine ⟨h1, ?_⟩
  unfold validateCustomFields customFieldErrors
  simp [candidateStep, requiredStep, h1, hreq, List.find?]

/-- C9 witness: null for a non-required boolean field. -/
theorem nullish_bypasses_kind_check_witness :
    validateCustomFieldValue (fun _ => true)
      ⟨"cf1", "flag", "Flag", "company", CustomFieldType.boolean, none, false, "t0", "admin"⟩
      JVal.vNull = none
    ∧ validateCustomFields (fun _ => true)
      [⟨"cf1", "flag", "Flag", "company", CustomFieldType.boolean, none, false, "t0", "admin"⟩]
      [("flag", JVal.vNull)] = Except.ok () :=
  nullish_bypasses_kind_check (fun _ => true)
    ⟨"cf1", "flag", "Flag", "company", CustomFieldType.boolean, none, false, "t0", "admin"⟩
    JVal.vNull rfl rfl

/-- C8 (amended): the shared utility `handleDatabaseError` maps a
not-null violation (code 23502) to a ConstraintViolation whose message
names the offending column and a malformed-literal error (code 22P02) to a
Validation failure; but the private handler each repository actually
installs at its boundary wraps both as an opaque DatabaseError. -/
theorem error_mapping_split (e : PgError) :
    (e.code = "23502" →
       handleDatabaseError e
         = JsError.constraintViolation
             ("Required field \x27" ++ jsOrElse e.column "unknown" ++ "\x27 cannot be null")
             "not_null"
       ∧ repoHandleDatabaseError e
         = JsError.database "Database operation failed" (JsError.pgRaw e))
    ∧ (e.code = "22P02" →
       handleDatabaseError e
         = JsError.validation "Invalid data format"
             [("format", ["Invalid UUID or data type format"])]
       ∧ repoHandleDatabaseError e
         = JsError.database "Database operation failed" (JsError.pgRaw e)) := by
  constructor
  · intro h
    constructor
    · simp [handleDatabaseError, h]
    · simp [repoHandleDatabaseError, h]
  · intro h
    constructor
    · simp [handleDatabaseError, h]
    · simp [repoHandleDatabaseError, h]

/-- C8 witness: concrete not-null and malformed-literal store errors. -/
theorem error_mapping_split_witness :
    (handleDatabaseError ⟨"23502", none, none, some "name"⟩
       = JsError.constraintViolation
           ("Required field \x27" ++ jsOrElse (some "name") "unknown" ++ "\x27 cannot be null")
           "not_null"
     ∧ repoHandleDatabaseError ⟨"23502", none, none, some "name"⟩
       = JsError.database "Database operation failed"
           (JsError.pgRaw ⟨"23502", none, none, some "name"⟩))
    ∧ (handleDatabaseError ⟨"22P02", none, none, none⟩
       = JsError.validation "Invalid data format"
           [("format", ["Invalid UUID or data type format"])]
     ∧ repoHandleDatabaseError ⟨"22P02", none, none, none⟩
       = JsError.database "Database operation failed"
           (JsError.pgRaw ⟨"22P02", none, none, none⟩)) :=
  ⟨(error_mapping_split ⟨"23502", none, none, some "name"⟩).1 rfl,
   (error_mapping_split ⟨"22P02", none, none, none⟩).2 rfl⟩

/-- C8 counterexample: at the repository boundary (the private handler the
repositories install), a not-null violation and a malformed-literal error
both surface as DatabaseError — not as ConstraintViolation or Validation. -/
theorem error_mapping_claim_counterexample :
    repoHandleDatabaseError ⟨"23502", none, none, some "name"⟩
      = JsError.database "Database operation failed"
          (JsError.pgRaw ⟨"23502", none, none, some "name"⟩)
    ∧ errName (repoHandleDatabaseError ⟨"23502", none, none, some "name"⟩) = "DatabaseError"
    ∧ repoHandleDatabaseError ⟨"22P02", none, none, none⟩
      = JsError.database "Database operation failed"
          (JsError.pgRaw ⟨"22P02", none, none, none⟩) :=
  ⟨rfl, rfl, rfl⟩

/-- C3 (amended): for an id with no stored entity, the SERVICE-layer get,
update and delete all fail with a Validation failure (message
"<Entity> not found", field entry under id) — not with the NotFound kind;
the NotFound kind is raised by the REPOSITORY update and delete when no
row matches. -/
theorem missing_id_error_kinds :
    (∀ (st : TaskStore) (id : String), storeFind st.rows id = none →
       serviceGetTask st id
         = Except.error (JsError.validation "Task not found" [("id", ["Task does not exist"])])
       ∧ (∀ (d : TaskDelta) (u now : String),
            (serviceUpdateTask st id d u now).1
              = Except.error (JsError.validation "Task not found"
                  [("id", ["Task does not exist"])]))
       ∧ (∀ (u : String),
            (serviceDeleteTask st id u).1
              = Except.error (JsError.validation "Task not found"
                  [("id", ["Task does not exist"])])))
    ∧ (∀ (st : CompanyStore) (id : String), storeFind st.rows id = none →
       serviceGetCompany st id
         = Except.error (JsError.validation "Company not found"
             [("id", ["Company does not exist"])])
       ∧ (∀ (dv : JVal → Bool) (d : CompanyDelta) (u now : String),
            (serviceUpdateCompany dv st id d u now).1
              = Except.error (JsError.validation "Company not found"
                  [("id", ["Company does not exist"])]))
       ∧ (∀ (u : String),
            (serviceDeleteCompany st id u).1
              = Except.error (JsError.validation "Company not found"
                  [("id", ["Company does not exist"])])))
    ∧ (∀ (rows : Table) (id : String) (d : TaskDelta) (u now : String),
         storeFind rows id = none →
         taskRepoUpdate rows id d u now = Except.error (JsError.notFound "Task" id))
    ∧ (∀ (rows : Table) (id : String), storeFind rows id = none →
         taskRepoDelete rows id = Except.error (JsError.notFound "Task" id))
    ∧ (∀ (rows : Table) (id : String) (d : CompanyDelta) (u now : String),
         storeFind rows id = none →
         companyRepoUpdate rows id d u now = Except.error (JsError.notFound "Company" id))
    ∧ (∀ (rows : Table) (id : String), storeFind rows id = none →
         companyRepoDelete rows id = Except.error (JsError.notFound "Company" id))
    ∧ (∀ (m : String) (f : List (String × List String)),
         errName (JsError.validation m f) = "ValidationError")
    ∧ (∀ (a b : String), errName (JsError.notFound a b) = "NotFoundError") := by
  refine ⟨?_, ?_, ?_, ?_, ?_, ?_, fun _ _ => rfl, fun _ _ => rfl⟩
  · intro st id h
    refine ⟨?_, fun d u now => ?_, fun u => ?_⟩ <;>
      simp [serviceGetTask, serviceUpdateTask, serviceDeleteTask, h]
  · intro st id h
    refine ⟨?_, fun dv d u now => ?_, fun u => ?_⟩ <;>
      simp [serviceGetCompany, serviceUpdateCompany, serviceDeleteCompany, h]
  · intro rows id d u now h
    unfold taskRepoUpdate
    rw [h]
    split
    · simp
    · rename_i heq
      exact Option.noConfusion heq
  · intro rows id h
    simp [taskRepoDelete, h]
  · intro rows id d u now h
    unfold companyRepoUpdate
    rw [h]
    split
    · simp
    · rename_i heq
      exact Option.noConfusion heq
  · intro rows id h
    simp [companyRepoDelete, h]

/-- C3 witness: a concrete lookup on an empty task store. -/
theorem missing_id_error_kinds_witness :
    serviceGetTask ⟨[], []⟩ "t1"
      = Except.error (JsError.validation "Task not found" [("id", ["Task does not exist"])]) :=
  (missing_id_error_kinds.1 ⟨[], []⟩ "t1" rfl).1

/-- C3 counterexample: the service get on a missing id surfaces the
Validation kind, not the NotFound kind the claim requires. -/
theorem missing_id_claim_counterexample :
    serviceGetTask ⟨[], []⟩ "t1"
      = Except.error (JsError.validation "Task not found" [("id", ["Task does not exist"])])
    ∧ errName (JsError.validation "Task not found" [("id", ["Task does not exist"])])
      = "ValidationError"
    ∧ (serviceDeleteCompany ⟨[], [], []⟩ "c1" "u").1
      = Except.error (JsError.validation "Company not found"
          [("id", ["Company does not exist"])]) :=
  ⟨rfl, rfl, rfl⟩

/-- C6: repository update with a delta containing no recognized fields is
a read-only no-op — it returns the stored row unchanged (so no
modification-timestamp bump) and leaves the table untouched — and fails
with NotFound exactly when no row matches the id.  Shown for the Task and
Company repositories. -/
theorem empty_delta_update_noop :
    (∀ (rows : Table) (id : String) (d : TaskDelta) (u now : String),
       d.description = none → d.dueDate = none → d.assignedTo = none → d.status = none →
       (∀ r, storeFind rows id = some r → taskRepoUpdate rows id d u now = Except.ok (r, rows))
       ∧ (storeFind rows id = none →
            taskRepoUpdate rows id d u now = Except.error (JsError.notFound "Task" id)))
    ∧ (∀ (rows : Table) (id : String) (d : CompanyDelta) (u now : String),
       d.name = none → d.address = none → d.customFields = none →
       (∀ r, storeFind rows id = some r →
          companyRepoUpdate rows id d u now = Except.ok (r, rows))
       ∧ (storeFind rows id = none →
            companyRepoUpdate rows id d u now = Except.error (JsError.notFound "Company" id))) := by
  constructor
  · intro rows id d u now h1 h2 h3 h4
    constructor
    · intro r hr
      simp [taskRepoUpdate, h1, h2, h3, h4, hr]
    · intro hr
      simp [taskRepoUpdate, h1, h2, h3, h4, hr]
  · intro rows id d u now h1 h2 h3
    constructor
    · intro r hr
      simp [companyRepoUpdate, h1, h2, h3, hr]
    · intro hr
      simp [companyRepoUpdate, h1, h2, h3, hr]

/-- Membership in the dedup worker: an element appears exactly when it is
in the remaining input and not already seen. -/
theorem jsSetDedupAux_mem (l : List String) :
    ∀ (seen : List String) (a : String),
      a ∈ jsSetDedupAux seen l ↔ (a ∈ l ∧ a ∉ seen) := by
  induction l with
  | nil => intro seen a; simp [jsSetDedupAux]
  | cons k rest ih =>
    intro seen a
    unfold jsSetDedupAux
    by_cases hk : seen.contains k
    · rw [if_pos hk, ih]
      have hks : k ∈ seen := by simpa using hk
      constructor
      · rintro ⟨h1, h2⟩
        exact ⟨List.mem_cons_of_mem _ h1, h2⟩
      · rintro ⟨h1, h2⟩
        rcases List.mem_cons.mp h1 with he | he
        · subst he
          exact absurd hks h2
        · exact ⟨he, h2⟩
    · rw [if_neg hk]
      have hks : k ∉ seen := by simpa using hk
      by_cases ha : a = k
      · subst ha
        simp [hks]
      · simp only [List.mem_cons, ha, false_or]
        rw [ih]
        simp [ha]

/-- Membership is invariant under JS Set deduplication. -/
theorem jsSetDedup_mem (l : List String) (a : String) : a ∈ jsSetDedup l ↔ a ∈ l := by
  unfold jsSetDedup
  rw [jsSetDedupAux_mem]
  simp

/-- The fold of `calculateChanges` only appends. -/
theorem foldl_calcStep_append (before after : Row) :
    ∀ (keys : List String) (acc : List (String × (Option JVal × Option JVal))),
      keys.foldl (calcStep before after) acc = acc ++ changesOf before after keys := by
  intro keys
  induction keys with
  | nil => intro acc; simp [changesOf]
  | cons key rest ih =>
    intro acc
    rw [List.foldl_cons, ih, changesOf]
    simp only [calcStep]
    by_cases hm : auditMetaKeys.contains key
    · rw [if_pos hm, if_pos hm]
    · rw [if_neg hm, if_neg hm]
      by_cases hd : jsonStringifyOpt (rowLookup before key) ≠ jsonStringifyOpt (rowLookup after key)
      · rw [if_pos hd, if_pos hd]
        simp
      · rw [if_neg hd, if_neg hd]

/-- Membership in the recursive reformulation of the diff computation. -/
theorem mem_changesOf (before after : Row) (keys : List String) (k : String)
    (p : Option JVal × Option JVal) :
    (k, p) ∈ changesOf before after keys ↔
      (k ∈ keys ∧ auditMetaKeys.contains k = false
       ∧ jsonStringifyOpt (rowLookup before k) ≠ jsonStringifyOpt (rowLookup after k)
       ∧ p = (rowLookup before k, rowLookup after k)) := by
  induction keys with
  | nil => simp [changesOf]
  | cons key rest ih =>
    unfold changesOf
    by_cases hm : auditMetaKeys.contains key
    · rw [if_pos hm, ih]
      constructor
      · rintro ⟨h1, h2, h3, h4⟩
        exact ⟨List.mem_cons_of_mem _ h1, h2, h3, h4⟩
      · rintro ⟨h1, h2, h3, h4⟩
        rcases List.mem_cons.mp h1 with he | he
        · subst he
          rw [hm] at h2
          exact absurd h2 (by simp)
        · exact ⟨he, h2, h3, h4⟩
    · rw [if_neg hm]
      by_cases hd : jsonStringifyOpt (rowLookup before key) ≠ jsonStringifyOpt (rowLookup after key)
      · rw [if_pos hd]
        constructor
        · intro hmem
          rcases List.mem_cons.mp hmem with he | he
          · have hk : k = key := congrArg Prod.fst he
            have hp : p = (rowLookup before key, rowLookup after key) := congrArg Prod.snd he
            subst hk
            exact ⟨List.mem_cons_self _ _, by simpa using hm, hd, hp⟩
          · have := ih.mp he
            exact ⟨List.mem_cons_of_mem _ this.1, this.2.1, this.2.2.1, this.2.2.2⟩
        · rintro ⟨h1, h2, h3, h4⟩
          rcases List.mem_cons.mp h1 with he | he
          · subst he
            subst h4
            exact List.mem_cons_self _ _
          · exact List.mem_cons_of_mem _ (ih.mpr ⟨he, h2, h3, h4⟩)
      · rw [if_neg hd]
        rw [ih]
        constructor
        · rintro ⟨h1, h2, h3, h4⟩
          exact ⟨List.mem_cons_of_mem _ h1, h2, h3, h4⟩
        · rintro ⟨h1, h2, h3, h4⟩
          rcases List.mem_cons.mp h1 with he | he
          · subst he
            exact absurd h3 hd
          · exact ⟨he, h2, h3, h4⟩

/-- C4: the audit diff holds an entry exactly for each key present in
either flat entity mapping, other than the metadata fields id, createdAt,
createdBy, updatedAt and updatedBy, whose JSON-serialized values differ —
the entry carrying exactly the before/after values — and `logUpdate`
writes no record at all exactly when this diff is empty. -/
theorem audit_diff_spec (before after : Row) (et ei u : String) :
    (∀ (k : String) (p : Option JVal × Option JVal),
       (k, p) ∈ calculateChanges before after ↔
         ((k ∈ before.map Prod.fst ∨ k ∈ after.map Prod.fst)
          ∧ auditMetaKeys.contains k = false
          ∧ jsonStringifyOpt (rowLookup before k) ≠ jsonStringifyOpt (rowLookup after k)
          ∧ p = (rowLookup before k, rowLookup after k)))
    ∧ (logUpdate et ei u before after = none ↔ calculateChanges before after = []) := by
  have hrw : calculateChanges before after
      = changesOf before after (jsSetDedup (before.map Prod.fst ++ after.map Prod.fst)) := by
    unfold calculateChanges
    rw [foldl_calcStep_append]
    simp
  constructor
  · intro k p
    rw [hrw, mem_changesOf, jsSetDedup_mem, List.mem_append]
  · by_cases h : calculateChanges before after = []
    · simp [logUpdate, h]
    · have hl : (calculateChanges before after).length > 0 := by
        cases hc : calculateChanges before after with
        | nil => exact absurd hc h
        | cons x t => simp
      simp [logUpdate, hl, h]

/-- Pushing into the error record never empties it. -/
theorem recordPush_ne_nil (rec : List (String × List String)) (k m : String) :
    recordPush rec k m ≠ [] := by
  unfold recordPush
  split
  · rename_i h
    intro hnil
    rw [List.map_eq_nil_iff] at hnil
    subst hnil
    simp at h
  · intro hnil
    simp at hnil

/-- Keys of the error record after a push: the pushed key joins the
existing ones. -/
theorem recordPush_any_key (rec : List (String × List String)) (k m q : String) :
    ((recordPush rec k m).any (fun p => p.1 == q))
      = (rec.any (fun p => p.1 == q) || (k == q)) := by
  unfold recordPush
  by_cases h : rec.any (fun p => p.1 == k)
  · rw [if_pos h]
    rw [List.any_map]
    have hcomp : ((fun p : String × List String => p.1 == q)
        ∘ (fun p => if p.1 == k then (p.1, p.2 ++ [m]) else p))
        = (fun p : String × List String => p.1 == q) := by
      funext p
      by_cases hp : p.1 = k <;> simp [hp]
    rw [hcomp]
    by_cases hkq : (k == q) = true
    · have hq : k = q := by simpa using hkq
      subst hq
      simp [h]
    · simp [hkq]
  · rw [if_neg h]
    simp

/-- The pushed key is present afterwards. -/
theorem recordPush_hasKey (rec : List (String × List String)) (k m : String) :
    (recordPush rec k m).any (fun p => p.1 == k) = true := by
  rw [recordPush_any_key]
  simp

/-- Existing keys survive a push. -/
theorem recordPush_keeps (rec : List (String × List String)) (k m q : String)
    (h : rec.any (fun p => p.1 == q) = true) :
    (recordPush rec k m).any (fun p => p.1 == q) = true := by
  rw [recordPush_any_key, h]
  simp

/-- A candidate step leaves the record empty exactly when it was empty and
the entry does not offend. -/
theorem candidateStep_eq_nil_iff (dv : JVal → Bool) (defs : List CustomFieldDefinition)
    (acc : List (String × List String)) (kv : String × JVal) :
    candidateStep dv defs acc kv = [] ↔ (acc = [] ∧ fieldOffends dv defs kv = false) := by
  unfold candidateStep fieldOffends
  split
  · rename_i heq
    simp [recordPush_ne_nil]
  · rename_i d heq
    split
    · rename_i hv
      simp [hv]
    · rename_i msg hv
      simp [hv, recordPush_ne_nil]

/-- The candidate loop leaves the record empty exactly when it started
empty and no candidate entry offends. -/
theorem foldl_candidateStep_eq_nil_iff (dv : JVal → Bool)
    (defs : List CustomFieldDefinition) :
    ∀ (cf : Row) (acc : List (String × List String)),
      cf.foldl (candidateStep dv defs) acc = []
        ↔ (acc = [] ∧ cf.any (fieldOffends dv defs) = false) := by
  intro cf
  induction cf with
  | nil => intro acc; simp
  | cons kv rest ih =>
    intro acc
    rw [List.foldl_cons, ih, candidateStep_eq_nil_iff]
    simp only [List.any_cons, Bool.or_eq_false_iff]
    tauto

/-- A required step leaves the record empty exactly when it was empty and
the definition is not a missing required one. -/
theorem requiredStep_eq_nil_iff (cf : Row) (acc : List (String × List String))
    (d : CustomFieldDefinition) :
    requiredStep cf acc d = [] ↔ (acc = [] ∧ requiredAbsent cf d = false) := by
  unfold requiredStep requiredAbsent
  by_cases h : (d.required && !(cf.any (fun kv => kv.1 == d.name))) = true
  · rw [if_pos h]
    simp [recordPush_ne_nil, h]
  · rw [if_neg h]
    rw [Bool.not_eq_true] at h
    simp [h]

/-- The required loop leaves the record empty exactly when it started
empty and no required definition is missing. -/
theorem foldl_requiredStep_eq_nil_iff (cf : Row) :
    ∀ (defs : List CustomFieldDefinition) (acc : List (String × List String)),
      defs.foldl (requiredStep cf) acc = []
        ↔ (acc = [] ∧ defs.any (requiredAbsent cf) = false) := by
  intro defs
  induction defs with
  | nil => intro acc; simp
  | cons d rest ih =>
    intro acc
    rw [List.foldl_cons, ih, requiredStep_eq_nil_iff]
    simp only [List.any_cons, Bool.or_eq_false_iff]
    tauto

/-- The accumulated error record is empty exactly when nothing offends. -/
theorem customFieldErrors_eq_nil_iff (dv : JVal → Bool)
    (defs : List CustomFieldDefinition) (cf : Row) :
    customFieldErrors dv defs cf = [] ↔ anyOffender dv defs cf = false := by
  unfold customFieldErrors anyOffender
  rw [foldl_requiredStep_eq_nil_iff, foldl_candidateStep_eq_nil_iff]
  simp [Bool.or_eq_false_iff]

/-- A candidate step preserves present keys. -/
theorem candidateStep_keeps (dv : JVal → Bool) (defs : List CustomFieldDefinition)
    (acc : List (String × List String)) (kv : String × JVal) (q : String)
    (h : acc.any (fun p => p.1 == q) = true) :
    (candidateStep dv defs acc kv).any (fun p => p.1 == q) = true := by
  unfold candidateStep
  split
  · exact recordPush_keeps _ _ _ _ h
  · split
    · exact h
    · exact recordPush_keeps _ _ _ _ h

/-- The candidate loop preserves present keys. -/
theorem foldl_candidateStep_keeps (dv : JVal → Bool) (defs : List CustomFieldDefinition) :
    ∀ (cf : Row) (acc : List (String × List String)) (q : String),
      acc.any (fun p => p.1 == q) = true →
      (cf.foldl (candidateStep dv defs) acc).any (fun p => p.1 == q) = true := by
  intro cf
  induction cf with
  | nil => intro acc q h; simpa using h
  | cons kv rest ih =>
    intro acc q h
    rw [List.foldl_cons]
    exact ih _ _ (candidateStep_keeps dv defs acc kv q h)

/-- A required step preserves present keys. -/
theorem requiredStep_keeps (cf : Row) (acc : List (String × List String))
    (d : CustomFieldDefinition) (q : String)
    (h : acc.any (fun p => p.1 == q) = true) :
    (requiredStep cf acc d).any (fun p => p.1 == q) = true := by
  unfold requiredStep
  split
  · exact recordPush_keeps _ _ _ _ h
  · exact h

/-- The required loop preserves present keys. -/
theorem foldl_requiredStep_keeps (cf : Row) :
    ∀ (defs : List CustomFieldDefinition) (acc : List (String × List String)) (q : String),
      acc.any (fun p => p.1 == q) = true →
      (defs.foldl (requiredStep cf) acc).any (fun p => p.1 == q) = true := by
  intro defs
  induction defs with
  | nil => intro acc q h; simpa using h
  | cons d rest ih =>
    intro acc q h
    rw [List.foldl_cons]
    exact ih _ _ (requiredStep_keeps cf acc d q h)

/-- Every offending candidate entry gets a key in the record the candidate
loop produces. -/
theorem foldl_candidateStep_hasKey (dv : JVal → Bool) (defs : List CustomFieldDefinition) :
    ∀ (cf : Row) (acc : List (String × List String)) (kv : String × JVal),
      kv ∈ cf → fieldOffends dv defs kv = true →
      (cf.foldl (candidateStep dv defs) acc).any (fun p => p.1 == kv.1) = true := by
  intro cf
  induction cf with
  | nil => intro acc kv h; exact absurd h (List.not_mem_nil kv)
  | cons hd rest ih =>
    intro acc kv hmem hoff
    rw [List.foldl_cons]
    rcases List.mem_cons.mp hmem with he | he
    · subst he
      apply foldl_candidateStep_keeps
      unfold candidateStep
      unfold fieldOffends at hoff
      split
      · exact recordPush_hasKey _ _ _
      · rename_i d heq
        simp only [heq] at hoff
        split
        · rename_i hv
          rw [hv] at hoff
          simp at hoff
        · exact recordPush_hasKey _ _ _
    · exact ih _ _ he hoff

/-- Every missing required definition gets a key in the record the
required loop produces. -/
theorem foldl_requiredStep_hasKey (cf : Row) :
    ∀ (defs : List CustomFieldDefinition) (acc : List (String × List String))
      (d : CustomFieldDefinition),
      d ∈ defs → requiredAbsent cf d = true →
      (defs.foldl (requiredStep cf) acc).any (fun p => p.1 == d.name) = true := by
  intro defs
  induction defs with
  | nil => intro acc d h; exact absurd h (List.not_mem_nil d)
  | cons hd rest ih =>
    intro acc d hmem habs
    rw [List.foldl_cons]
    rcases List.mem_cons.mp hmem with he | he
    · subst he
      apply foldl_requiredStep_keeps
      unfold requiredStep
      unfold requiredAbsent at habs
      rw [if_pos habs]
      exact recordPush_hasKey _ _ _
    · exact ih _ _ he habs

/-- C1 (amended): `validateCustomFields` succeeds exactly when no
candidate key is unknown, no candidate value fails its definition's value
check — where a null/undefined value fails exactly when the definition is
required and otherwise bypasses the kind-specific check — and no required
definition's name is absent; on failure it throws a ValidationError
carrying the whole accumulated error mapping, which contains an entry
under every offending candidate key and every missing required field
name. The function is pure: its outcome is fully determined by its
arguments. -/
theorem custom_field_validation_complete (dv : JVal → Bool)
    (defs : List CustomFieldDefinition) (cf : Row) :
    (validateCustomFields dv defs cf = Except.ok () ↔ anyOffender dv defs cf = false)
    ∧ (anyOffender dv defs cf = true →
         validateCustomFields dv defs cf
           = Except.error (JsError.validation "Custom field validation failed"
               (customFieldErrors dv defs cf)))
    ∧ (∀ kv ∈ cf, fieldOffends dv defs kv = true →
         (customFieldErrors dv defs cf).any (fun p => p.1 == kv.1) = true)
    ∧ (∀ d ∈ defs, requiredAbsent cf d = true →
         (customFieldErrors dv defs cf).any (fun p => p.1 == d.name) = true) := by
  refine ⟨?_, ?_, ?_, ?_⟩
  · unfold validateCustomFields
    by_cases h : customFieldErrors dv defs cf = []
    · rw [(customFieldErrors_eq_nil_iff dv defs cf).mp h] at *
      simp [h]
    · have hoff : anyOffender dv defs cf = true := by
        rcases ho : anyOffender dv defs cf with _ | _
        · exact absurd ((customFieldErrors_eq_nil_iff dv defs cf).mpr ho) h
        · rfl
      have hne : (customFieldErrors dv defs cf).isEmpty = false := by
        cases hc : customFieldErrors dv defs cf with
        | nil => exact absurd hc h
        | cons x t => simp
      simp [hne, hoff]
  · intro hoff
    have h : customFieldErrors dv defs cf ≠ [] := by
      intro hnil
      rw [(customFieldErrors_eq_nil_iff dv defs cf).mp hnil] at hoff
      exact Bool.noConfusion hoff
    have hne : (customFieldErrors dv defs cf).isEmpty = false := by
      cases hc : customFieldErrors dv defs cf with
      | nil => exact absurd hc h
      | cons x t => simp
    unfold validateCustomFields
    simp [hne]
  · intro kv hmem hoff
    unfold customFieldErrors
    exact foldl_requiredStep_keeps cf defs _ kv.1
      (foldl_candidateStep_hasKey dv defs cf [] kv hmem hoff)
  · intro d hmem habs
    unfold customFieldErrors
    exact foldl_requiredStep_hasKey cf defs _ d hmem habs

/-- C1 witness: one unknown key and one missing required definition, each
reported under its own name in a single failing pass. -/
theorem custom_field_validation_complete_witness :
    validateCustomFields (fun _ => true)
      [⟨"cf3", "industry", "Industry", "company", CustomFieldType.enumType,
        some ["Tech", "Retail"], true, "t0", "admin"⟩]
      [("bogus", JVal.vStr "x")]
      = Except.error (JsError.validation "Custom field validation failed"
          (customFieldErrors (fun _ => true)
            [⟨"cf3", "industry", "Industry", "company", CustomFieldType.enumType,
              some ["Tech", "Retail"], true, "t0", "admin"⟩]
            [("bogus", JVal.vStr "x")]))
    ∧ (customFieldErrors (fun _ => true)
        [⟨"cf3", "industry", "Industry", "company", CustomFieldType.enumType,
          some ["Tech", "Retail"], true, "t0", "admin"⟩]
        [("bogus", JVal.vStr "x")]).any (fun p => p.1 == "bogus") = true
    ∧ (customFieldErrors (fun _ => true)
        [⟨"cf3", "industry", "Industry", "company", CustomFieldType.enumType,
          some ["Tech", "Retail"], true, "t0", "admin"⟩]
        [("bogus", JVal.vStr "x")]).any (fun p => p.1 == "industry") = true := by
  refine ⟨?_, ?_, ?_⟩
  · exact (custom_field_validation_complete (fun _ => true) _ _).2.1 (by decide)
  · exact (custom_field_validation_complete (fun _ => true)
      [⟨"cf3", "industry", "Industry", "company", CustomFieldType.enumType,
        some ["Tech", "Retail"], true, "t0", "admin"⟩]
      [("bogus", JVal.vStr "x")]).2.2.1 ("bogus", JVal.vStr "x")
      (List.mem_singleton.mpr rfl) (by decide)
  · exact (custom_field_validation_complete (fun _ => true)
      [⟨"cf3", "industry", "Industry", "company", CustomFieldType.enumType,
        some ["Tech", "Retail"], true, "t0", "admin"⟩]
      [("bogus", JVal.vStr "x")]).2.2.2
      ⟨"cf3", "industry", "Industry", "company", CustomFieldType.enumType,
        some ["Tech", "Retail"], true, "t0", "admin"⟩
      (List.mem_singleton.mpr rfl) (by decide)

/-- C1 counterexample: with a non-required boolean definition and a null
candidate value, the claim's condition — the value fails the
kind-specific check (null is not a boolean) — holds, yet validation
succeeds: the null/undefined exemption makes the claimed "if and only if"
false at this input. -/
theorem custom_field_validation_claim_counterexample :
    validateCustomFields (fun _ => true)
      [⟨"cf1", "flag", "Flag", "company", CustomFieldType.boolean, none, false, "t0", "admin"⟩]
      [("flag", JVal.vNull)] = Except.ok ()
    ∧ claimedOffender (fun _ => true)
      [⟨"cf1", "flag", "Flag", "company", CustomFieldType.boolean, none, false, "t0", "admin"⟩]
      [("flag", JVal.vNull)] = true :=
  ⟨rfl, rfl⟩

/-- C2 (amended): each successful create or delete through an entity
service (shown for the Task service and for the Company service, whose two
shapes the contact/deal/note services repeat verbatim) appends exactly one
audit record — action and acting user matching — and each successful
update appends exactly the one record `logUpdate` produces, which is none
when the computed diff is empty; the custom-field-definition service
appends no audit record on any of its mutations. -/
theorem audit_record_per_mutation :
    (∀ (st : TaskStore) (data : TaskInput) (u g now : String),
       (serviceCreateTask st data u g now).2.audit
         = st.audit ++ [logCreate "task" g u (JVal.vObj (taskRowOfInput data g u now))])
    ∧ (∀ (st : TaskStore) (id : String) (d : TaskDelta) (u now : String)
         (t : Row) (st' : TaskStore) (existing : Row),
         storeFind st.rows id = some existing →
         serviceUpdateTask st id d u now = (Except.ok t, st') →
         st'.audit = st.audit ++ (match logUpdate "task" id u existing t with
           | none => []
           | some r => [r]))
    ∧ (∀ (st : TaskStore) (id u : String) (st' : TaskStore) (existing : Row),
         storeFind st.rows id = some existing →
         serviceDeleteTask st id u = (Except.ok (), st') →
         st'.audit = st.audit ++ [logDelete "task" id u (JVal.vObj existing)])
    ∧ (∀ (dv : JVal → Bool) (st : CompanyStore) (data : CompanyInput) (u g now : String),
         exceptIsOk (serviceCreateCompany dv st data u g now).1 = true →
         (serviceCreateCompany dv st data u g now).2.audit
           = st.audit ++ [logCreate "company" g u (JVal.vObj (companyRowOfInput data g u now))])
    ∧ (∀ (dv : JVal → Bool) (st : CompanyStore) (id : String) (d : CompanyDelta)
         (u now : String) (c : Row) (st' : CompanyStore) (existing : Row),
         storeFind st.rows id = some existing →
         serviceUpdateCompany dv st id d u now = (Except.ok c, st') →
         st'.audit = st.audit ++ (match logUpdate "company" id u existing c with
           | none => []
           | some r => [r]))
    ∧ (∀ (st : CompanyStore) (id u : String) (st' : CompanyStore) (existing : Row),
         storeFind st.rows id = some existing →
         serviceDeleteCompany st id u = (Except.ok (), st') →
         st'.audit = st.audit ++ [logDelete "company" id u (JVal.vObj existing)])
    ∧ (∀ (et ei u : String) (dd : JVal),
         (logCreate et ei u dd).action = "create" ∧ (logCreate et ei u dd).userId = u)
    ∧ (∀ (et ei u : String) (b a : Row) (r : AuditRecord),
         logUpdate et ei u b a = some r → r.action = "update" ∧ r.userId = u)
    ∧ (∀ (et ei u : String) (dd : JVal),
         (logDelete et ei u dd).action = "delete" ∧ (logDelete et ei u dd).userId = u)
    ∧ (∀ (st : CFDefStore) (data : CFDefInput) (u g now : String),
         (serviceCreateCFDef st data u g now).2.audit = st.audit)
    ∧ (∀ (st : CFDefStore) (id : String) (d : CFDefDelta) (u : String),
         (serviceUpdateCFDef st id d u).2.audit = st.audit)
    ∧ (∀ (st : CFDefStore) (id u : String),
         (serviceDeleteCFDef st id u).2.audit = st.audit) := by
  refine ⟨fun st data u g now => rfl, ?_, ?_, ?_, ?_, ?_,
    fun et ei u dd => ⟨rfl, rfl⟩, ?_, fun et ei u dd => ⟨rfl, rfl⟩,
    fun st data u g now => rfl, ?_, ?_⟩
  · intro st id d u now t st' existing hfind hupd
    simp only [serviceUpdateTask, hfind] at hupd
    cases hrepo : taskRepoUpdate st.rows id d u now with
    | error e =>
      simp only [hrepo] at hupd
      injection hupd with ha hb
      exact Except.noConfusion ha
    | ok pr =>
      obtain ⟨updated, rows2⟩ := pr
      simp only [hrepo] at hupd
      injection hupd with ha hb
      injection ha with hat
      subst hat
      rw [← hb]
  · intro st id u st' existing hfind hdel
    simp only [serviceDeleteTask, taskRepoDelete, hfind] at hdel
    injection hdel with ha hb
    rw [← hb]
  · intro dv st data u g now hok
    simp only [serviceCreateCompany] at hok ⊢
    by_cases hcf : data.customFields.length > 0
    · rw [if_pos hcf] at hok ⊢
      cases hv : validateCustomFields dv st.cfdefs data.customFields with
      | error e =>
        simp only [hv, exceptIsOk] at hok
        exact Bool.noConfusion hok
      | ok v =>
        simp only [hv]
    · rw [if_neg hcf] at hok ⊢
  · intro dv st id d u now c st' existing hfind hupd
    simp only [serviceUpdateCompany, hfind] at hupd
    cases hcfv : companyCfCheck dv st d with
    | error e =>
      simp only [hcfv] at hupd
      injection hupd with ha hb
      exact Except.noConfusion ha
    | ok v =>
      simp only [hcfv] at hupd
      cases hrepo : companyRepoUpdate st.rows id d u now with
      | error e =>
        simp only [hrepo] at hupd
        injection hupd with ha hb
        exact Except.noConfusion ha
      | ok pr =>
        obtain ⟨updated, rows2⟩ := pr
        simp only [hrepo] at hupd
        injection hupd with ha hb
        injection ha with hat
        subst hat
        rw [← hb]
  · intro st id u st' existing hfind hdel
    simp only [serviceDeleteCompany, companyRepoDelete, hfind] at hdel
    injection hdel with ha hb
    rw [← hb]
  · intro et ei u b a r hlog
    simp only [logUpdate] at hlog
    by_cases h : (calculateChanges b a).length > 0
    · rw [if_pos h] at hlog
      injection hlog with hr
      rw [← hr]
      exact ⟨rfl, rfl⟩
    · rw [if_neg h] at hlog
      exact Option.noConfusion hlog
  · intro st id d u
    unfold serviceUpdateCFDef
    split
    · rfl
    · split
      · rfl
      · rfl
  · intro st id u
    unfold serviceDeleteCFDef
    split
    · rfl
    · rfl

/-- C2 witness: a concrete task create and delete each append exactly one
record, and a concrete definition create appends none. -/
theorem audit_record_per_mutation_witness :
    (serviceCreateTask ⟨[], []⟩ ⟨"do it", none, none, "open", "company", "c1"⟩
        "u1" "t1" "2024").2.audit
      = [] ++ [logCreate "task" "t1" "u1"
          (JVal.vObj (taskRowOfInput ⟨"do it", none, none, "open", "company", "c1"⟩
            "t1" "u1" "2024"))]
    ∧ (serviceDeleteTask
        ⟨[("t1", taskRowOfInput ⟨"do it", none, none, "open", "company", "c1"⟩
            "t1" "u0" "2024")], []⟩ "t1" "u3").2.audit
      = [] ++ [logDelete "task" "t1" "u3"
          (JVal.vObj (taskRowOfInput ⟨"do it", none, none, "open", "company", "c1"⟩
            "t1" "u0" "2024"))]
    ∧ (serviceCreateCFDef ⟨[], []⟩
        ⟨"industry", "Industry", "company", CustomFieldType.text, none, false⟩
        "admin" "f1" "t0").2.audit = [] := by
  refine ⟨?_, ?_, ?_⟩
  · exact audit_record_per_mutation.1 ⟨[], []⟩
      ⟨"do it", none, none, "open", "company", "c1"⟩ "u1" "t1" "2024"
  · exact audit_record_per_mutation.2.2.1
      ⟨[("t1", taskRowOfInput ⟨"do it", none, none, "open", "company", "c1"⟩
          "t1" "u0" "2024")], []⟩ "t1" "u3"
      (serviceDeleteTask
        ⟨[("t1", taskRowOfInput ⟨"do it", none, none, "open", "company", "c1"⟩
            "t1" "u0" "2024")], []⟩ "t1" "u3").2
      (taskRowOfInput ⟨"do it", none, none, "open", "company", "c1"⟩ "t1" "u0" "2024")
      rfl rfl
  · exact audit_record_per_mutation.2.2.2.2.2.2.2.2.2.1 ⟨[], []⟩
      ⟨"industry", "Industry", "company", CustomFieldType.text, none, false⟩
      "admin" "f1" "t0"

/-- C2 counterexample: a successful create through the
custom-field-definition service produces zero audit records, and so does a
successful update whose delta re-sets a field to its current value
(empty diff) — both refuting "exactly one audit record per successful
mutating service call". -/
theorem audit_record_claim_counterexample :
    exceptIsOk (serviceCreateCFDef ⟨[], []⟩
      ⟨"industry", "Industry", "company", CustomFieldType.text, none, false⟩
      "admin" "f1" "t0").1 = true
    ∧ (serviceCreateCFDef ⟨[], []⟩
        ⟨"industry", "Industry", "company", CustomFieldType.text, none, false⟩
        "admin" "f1" "t0").2.audit = []
    ∧ exceptIsOk (serviceUpdateTask
        ⟨[("t1", taskRowOfInput ⟨"do it", none, none, "open", "company", "c1"⟩
            "t1" "u0" "2024")], []⟩
        "t1" ⟨none, none, none, some "open"⟩ "u2" "2025").1 = true
    ∧ (serviceUpdateTask
        ⟨[("t1", taskRowOfInput ⟨"do it", none, none, "open", "company", "c1"⟩
            "t1" "u0" "2024")], []⟩
        "t1" ⟨none, none, none, some "open"⟩ "u2" "2025").2.audit = [] :=
  ⟨rfl, rfl, rfl, rfl⟩

/-- C4 witness: a one-field change is recorded with its exact before/after
values, and an update that changes nothing writes no record. -/
theorem audit_diff_spec_witness :
    ("status", (some (JVal.vStr "open"), some (JVal.vStr "closed")))
      ∈ calculateChanges [("id", JVal.vStr "t1"), ("status", JVal.vStr "open")]
          [("id", JVal.vStr "t1"), ("status", JVal.vStr "closed")]
    ∧ logUpdate "task" "t1" "u" [("id", JVal.vStr "t1"), ("status", JVal.vStr "open")]
        [("id", JVal.vStr "t1"), ("status", JVal.vStr "open")] = none := by
  constructor
  · exact ((audit_diff_spec [("id", JVal.vStr "t1"), ("status", JVal.vStr "open")]
      [("id", JVal.vStr "t1"), ("status", JVal.vStr "closed")] "task" "t1" "u").1
      "status" (some (JVal.vStr "open"), some (JVal.vStr "closed"))).mpr
      ⟨Or.inl (by decide), by decide, by decide, rfl⟩
  · exact (audit_diff_spec [("id", JVal.vStr "t1"), ("status", JVal.vStr "open")]
      [("id", JVal.vStr "t1"), ("status", JVal.vStr "open")] "task" "t1" "u").2.mpr rfl

/-- C6 witness: an empty delta against a one-row table returns the stored
row and leaves the table unchanged. -/
theorem empty_delta_update_noop_witness :
    taskRepoUpdate [("t1", taskRowOfInput ⟨"do it", none, none, "open", "company", "c1"⟩
        "t1" "u0" "2024")] "t1" ⟨none, none, none, none⟩ "u2" "2025"
      = Except.ok
          (taskRowOfInput ⟨"do it", none, none, "open", "company", "c1"⟩ "t1" "u0" "2024",
           [("t1", taskRowOfInput ⟨"do it", none, none, "open", "company", "c1"⟩
              "t1" "u0" "2024")]) :=
  ((empty_delta_update_noop.1
      [("t1", taskRowOfInput ⟨"do it", none, none, "open", "company", "c1"⟩ "t1" "u0" "2024")]
      "t1" ⟨none, none, none, none⟩ "u2" "2025" rfl rfl rfl rfl).1
    (taskRowOfInput ⟨"do it", none, none, "open", "company", "c1"⟩ "t1" "u0" "2024") rfl)

end MojoCrm
